import Mathlib

/-!
Verification development for the meeting-minutes pipeline
(`meeting_notes.py`): audio segmentation (`chunk_audio`), chunked
transcription (`transcribe_audio`), resilient extraction-payload parsing
(`summarize_transcript`) and Markdown rendering
(`MeetingMinutes.to_markdown`).

The Python code is shallowly embedded:

* JSON values are the inductive `Json`; `json.loads` is embedded by
  `json_loads`, a fuel-driven recursive-descent decoder for the JSON
  grammar restricted to integer numerals (no fraction/exponent part) and
  to the standard escape sequences with `\u` taken as a single code
  point.  The claims below only ever evaluate it on payloads inside this
  fragment, where it agrees with Python.
* Python truthiness is `pyTruthy`; `dict.get` is `pyGetD` (JSON object
  decoding keeps the last duplicate key via `insertPair`, as Python
  does); `str.strip()` is `pyStrip` (ASCII whitespace); `str.strip` of a
  backtick set is `stripChars` applied to a backtick test.
* Code that can raise (`.get` / `.strip` on a value lacking the method)
  returns `Except String _`, the error string naming the Python
  exception.
* Audio is abstracted to its length in milliseconds; a chunk is its
  `(start, length)` span; the external transcription client is a
  function from spans to `Except String String`; the extraction client's
  response is an `Option String` argument (`None` for a null `content`).
-/

/-- JSON whitespace characters skipped by the decoder (space, tab, LF, CR). -/
def isJsonWs (c : Char) : Bool :=
  c == ' ' || c == '\t' || c == '\n' || c == '\r'

/-- ASCII whitespace characters removed by Python `str.strip()`. -/
def isPyStripWs (c : Char) : Bool :=
  c == ' ' || c == '\t' || c == '\n' || c == '\r' || c == '\x0b' || c == '\x0c'

/-- Backtick test for `str.strip` with an explicit character set of one backtick. -/
def isBacktick (c : Char) : Bool :=
  c == Char.ofNat 96

/-- Remove the characters satisfying `p` from both ends of a character list. -/
def stripList (p : Char → Bool) (l : List Char) : List Char :=
  ((l.dropWhile p).reverse.dropWhile p).reverse

/-- Remove the characters satisfying `p` from both ends of a string: the
common shape of Python `str.strip()` and `str.strip(chars)`. -/
def stripChars (p : Char → Bool) (s : String) : String :=
  String.mk (stripList p s.data)

/-- Python `str.strip()` restricted to ASCII whitespace. -/
def pyStrip (s : String) : String :=
  stripChars isPyStripWs s

/-- JSON values, with numbers restricted to integers. -/
inductive Json where
  | null : Json
  | bool : Bool → Json
  | num : Int → Json
  | str : String → Json
  | arr : List Json → Json
  | obj : List (String × Json) → Json

/-- Python truthiness of a JSON-decoded value. -/
def pyTruthy : Json → Bool
  | Json.null => false
  | Json.bool b => b
  | Json.num n => n != 0
  | Json.str s => !s.isEmpty
  | Json.arr l => !l.isEmpty
  | Json.obj o => !o.isEmpty

/-- Python `dict.get(key, default)` over the association list of an object. -/
def pyGetD (o : List (String × Json)) (key : String) (default : Json) : Json :=
  match o.find? (fun p => p.1 == key) with
  | some p => p.2
  | none => default

/-- Insert a key-value pair the way Python `dict` assignment does during
JSON decoding: an existing key keeps its position and gets the new value,
a new key is appended. -/
def insertPair (o : List (String × Json)) (key : String) (v : Json) : List (String × Json) :=
  if o.any (fun p => p.1 == key) then
    o.map (fun p => if p.1 == key then (key, v) else p)
  else
    o ++ [(key, v)]

/-- Numeric value of a hexadecimal digit, if any. -/
def hexVal? (c : Char) : Option Nat :=
  if c.isDigit then some (c.toNat - 48)
  else if 'a' ≤ c ∧ c ≤ 'f' then some (c.toNat - 87)
  else if 'A' ≤ c ∧ c ≤ 'F' then some (c.toNat - 55)
  else none

/-- Decode the body of a JSON string literal after its opening quote,
returning the decoded characters and the input past the closing quote.
Unescaped control characters are rejected, as in Python strict mode. -/
def parseStrBody : Nat → List Char → Option (List Char × List Char)
  | 0, _ => none
  | _, [] => none
  | fuel + 1, c :: rest =>
    if c = '"' then some ([], rest)
    else if c = '\\' then
      match rest with
      | [] => none
      | e :: rest1 =>
        if e = 'u' then
          match rest1 with
          | a :: b :: c2 :: d :: rest2 =>
            match hexVal? a, hexVal? b, hexVal? c2, hexVal? d with
            | some x, some y, some z, some w =>
              match parseStrBody fuel rest2 with
              | some r => some (Char.ofNat (((x * 16 + y) * 16 + z) * 16 + w) :: r.1, r.2)
              | none => none
            | _, _, _, _ => none
          | _ => none
        else
          match
            (if e = '"' then some '"'
             else if e = '\\' then some '\\'
             else if e = '/' then some '/'
             else if e = 'n' then some '\n'
             else if e = 't' then some '\t'
             else if e = 'r' then some '\r'
             else if e = 'b' then some '\x08'
             else if e = 'f' then some '\x0c'
             else none) with
          | some d =>
            match parseStrBody fuel rest1 with
            | some r => some (d :: r.1, r.2)
            | none => none
          | none => none
    else if c.toNat < 32 then none
    else
      match parseStrBody fuel rest with
      | some r => some (c :: r.1, r.2)
      | none => none

/-- Decode a JSON integer numeral (optional sign, no leading zeros). -/
def parseNumber (cs : List Char) : Option (Json × List Char) :=
  let core : List Char → Option (Nat × List Char) := fun l =>
    match l with
    | '0' :: rest => some (0, rest)
    | c :: _ =>
      if c.isDigit then
        let ds := l.takeWhile Char.isDigit
        some (ds.foldl (fun acc d => acc * 10 + (d.toNat - 48)) 0, l.dropWhile Char.isDigit)
      else none
    | [] => none
  match cs with
  | '-' :: rest =>
    match core rest with
    | some (n, r) => some (Json.num (-(n : Int)), r)
    | none => none
  | _ =>
    match core cs with
    | some (n, r) => some (Json.num (n : Int), r)
    | none => none

/-- Match an expected literal tail such as `rue` of `true`. -/
def expectLit (lit : List Char) (cs : List Char) : Option (List Char) :=
  if cs.take lit.length = lit then some (cs.drop lit.length) else none

mutual

/-- Decode one JSON value from the input, skipping leading whitespace. -/
def parseValue : Nat → List Char → Option (Json × List Char)
  | 0, _ => none
  | fuel + 1, cs =>
    let cs := cs.dropWhile isJsonWs
    match cs with
    | '\x7b' :: rest => parseObjBody fuel rest
    | '[' :: rest => parseArrBody fuel rest
    | '"' :: rest =>
      match parseStrBody fuel rest with
      | some r => some (Json.str (String.mk r.1), r.2)
      | none => none
    | 't' :: rest =>
      match expectLit ['r', 'u', 'e'] rest with
      | some r => some (Json.bool true, r)
      | none => none
    | 'f' :: rest =>
      match expectLit ['a', 'l', 's', 'e'] rest with
      | some r => some (Json.bool false, r)
      | none => none
    | 'n' :: rest =>
      match expectLit ['u', 'l', 'l'] rest with
      | some r => some (Json.null, r)
      | none => none
    | _ => parseNumber cs

/-- Decode an array body after its opening bracket. -/
def parseArrBody : Nat → List Char → Option (Json × List Char)
  | 0, _ => none
  | fuel + 1, cs =>
    let cs := cs.dropWhile isJsonWs
    match cs with
    | ']' :: rest => some (Json.arr [], rest)
    | _ =>
      match parseValue fuel cs with
      | some (v, rest) => parseArrRest fuel [v] rest
      | none => none

/-- Decode the remaining elements of a non-empty array. -/
def parseArrRest : Nat → List Json → List Char → Option (Json × List Char)
  | 0, _, _ => none
  | fuel + 1, acc, cs =>
    let cs := cs.dropWhile isJsonWs
    match cs with
    | ',' :: rest =>
      match parseValue fuel rest with
      | some (v, r2) => parseArrRest fuel (acc ++ [v]) r2
      | none => none
    | ']' :: rest => some (Json.arr acc, rest)
    | _ => none

/-- Decode an object body after its opening brace. -/
def parseObjBody : Nat → List Char → Option (Json × List Char)
  | 0, _ => none
  | fuel + 1, cs =>
    let cs := cs.dropWhile isJsonWs
    match cs with
    | '\x7d' :: rest => some (Json.obj [], rest)
    | _ => parseMembers fuel [] cs

/-- Decode the members of a non-empty object. -/
def parseMembers : Nat → List (String × Json) → List Char → Option (Json × List Char)
  | 0, _, _ => none
  | fuel + 1, acc, cs =>
    let cs := cs.dropWhile isJsonWs
    match cs with
    | '"' :: rest =>
      match parseStrBody fuel rest with
      | some (kcs, r1) =>
        match r1.dropWhile isJsonWs with
        | ':' :: r2 =>
          match parseValue fuel r2 with
          | some (v, r3) =>
            match r3.dropWhile isJsonWs with
            | ',' :: r4 => parseMembers fuel (insertPair acc (String.mk kcs) v) r4
            | '\x7d' :: r4 => some (Json.obj (insertPair acc (String.mk kcs) v), r4)
            | _ => none
          | none => none
        | _ => none
      | none => none
    | _ => none

end

/-- Embedding of `json.loads`: decode one value and require only
whitespace to remain.  The fuel is an upper bound on the decoder steps,
ample for any input of this length. -/
def json_loads (s : String) : Option Json :=
  match parseValue (4 * s.data.length + 16) s.data with
  | some (v, rest) => if rest.dropWhile isJsonWs = [] then some v else none
  | none => none

/-- Embedding of the decode fallback of `summarize_transcript` (lines
148-154): try `json.loads(content)`, then
`json.loads(content.strip().strip(backtick))`, else keep the initial
empty dict. -/
def decodeData (content : String) : Json :=
  match json_loads content with
  | some v => v
  | none =>
    match json_loads (stripChars isBacktick (pyStrip content)) with
    | some v => v
    | none => Json.obj []

/-- The `ActionItem` dataclass.  `owner` and `due_date` hold whatever
JSON value the code stored (the dataclass annotation says `str` but
Python does not enforce it), or `none` for Python `None`. -/
structure ActionItem where
  description : String
  owner : Option Json := none
  due_date : Option Json := none

/-- The `MeetingMinutes` dataclass.  The list fields hold the raw JSON
elements the code stored without element-level type checks. -/
structure MeetingMinutes where
  date : String
  summary : List Json
  decisions : List Json
  action_items : List ActionItem
  timeline : List Json
  transcript : String

/-- Embedding of `data.get(key, []) if isinstance(data.get(key), list)
else []` for a top-level field of the decoded payload. -/
def jsonFieldList (kvs : List (String × Json)) (key : String) : List Json :=
  match pyGetD kvs key Json.null with
  | Json.arr l => l
  | _ => []

/-- Filter of the action-item comprehension:
`isinstance(item, dict) and item.get("description")`. -/
def acceptsItem (item : Json) : Bool :=
  match item with
  | Json.obj kvs => pyTruthy (pyGetD kvs "description" Json.null)
  | _ => false

/-- Body of the action-item comprehension: build
`ActionItem(description=item.get("description", "").strip(),
owner=item.get("owner") or None, due_date=item.get("due_date") or None)`.
Calling `.strip()` on a non-string description raises, hence `Except`. -/
def mkActionItem (item : Json) : Except String ActionItem :=
  match item with
  | Json.obj kvs =>
    match pyGetD kvs "description" (Json.str "") with
    | Json.str s =>
      Except.ok
        { description := pyStrip s
          owner :=
            if pyTruthy (pyGetD kvs "owner" Json.null) then some (pyGetD kvs "owner" Json.null)
            else none
          due_date :=
            if pyTruthy (pyGetD kvs "due_date" Json.null) then some (pyGetD kvs "due_date" Json.null)
            else none }
    | _ => Except.error "AttributeError: strip called on a non-string description"
  | _ => Except.error "AttributeError: item is not a dict"

/-- The action-item list comprehension over `raw_actions` (lines 159-167). -/
def buildActions : List Json → Except String (List ActionItem)
  | [] => Except.ok []
  | item :: rest =>
    if acceptsItem item then
      match mkActionItem item with
      | Except.error e => Except.error e
      | Except.ok a =>
        match buildActions rest with
        | Except.error e => Except.error e
        | Except.ok l => Except.ok (a :: l)
    else buildActions rest

/-- Field extraction of `summarize_transcript` (lines 156-177) applied to
the decoded `data`: every `data.get` raises `AttributeError` when `data`
is not a dict, which is the error case. -/
def buildMinutes (data : Json) (transcript meeting_date : String) : Except String MeetingMinutes :=
  match data with
  | Json.obj kvs =>
    match buildActions (jsonFieldList kvs "action_items") with
    | Except.error e => Except.error e
    | Except.ok actions =>
      Except.ok
        { date := meeting_date
          summary := jsonFieldList kvs "summary"
          decisions := jsonFieldList kvs "decisions"
          action_items := actions
          timeline := jsonFieldList kvs "timeline"
          transcript := transcript }
  | _ => Except.error "AttributeError: get called on a non-dict value"

/-- Embedding of `summarize_transcript` with the chat-completion call
abstracted into its response content `respContent` (`none` models a null
`message.content`; the code replaces a falsy content with the string of
an empty object).  The meeting title and model name only shape the
request, not the parse, and are omitted. -/
def summarize_transcript (respContent : Option String) (transcript meeting_date : String) :
    Except String MeetingMinutes :=
  let content :=
    match respContent with
    | none => "\x7b\x7d"
    | some s => if s = "" then "\x7b\x7d" else s
  buildMinutes (decodeData content) transcript meeting_date

/-- Embedding of the loop of `range(start, stop, step)` for a positive
step, as the list of produced indices; the fuel bounds the iteration
count structurally and never runs out when it is at least `stop - start`,
since every iteration advances `start` by at least one.  A zero step
yields the empty list (Python raises there; the code never calls it with
a zero step). -/
def pyRangeFrom : Nat → Nat → Nat → Nat → List Nat
  | 0, _, _, _ => []
  | fuel + 1, start, stop, step =>
    if 0 < step ∧ start < stop then
      start :: pyRangeFrom fuel (start + step) stop step
    else []

/-- Embedding of `range(0, stop, step)`. -/
def pyRange (stop step : Nat) : List Nat :=
  pyRangeFrom stop 0 stop step

/-- The spans `(start, length)` of the chunks that
`audio[start_ms : start_ms + stride]` yields over an audio of length
`audioLen` milliseconds: the slice past the end is clipped. -/
def segmentSpans (audioLen stride : Nat) : List (Nat × Nat) :=
  (pyRange audioLen stride).map (fun start => (start, min stride (audioLen - start)))

/-- Embedding of `chunk_audio` (lines 95-99): `stride = chunk_seconds * 1000`
over the decoded audio, abstracted to chunk spans in milliseconds. -/
def chunk_audio (audioLen chunkSeconds : Nat) : List (Nat × Nat) :=
  segmentSpans audioLen (chunkSeconds * 1000)

/-- Run the per-chunk transcription loop (lines 106-116), returning the
spans the client was actually called on together with the outcome: the
first client error propagates immediately, ending the loop. -/
def transcribeChunkedTrace (client : Nat × Nat → Except String String) :
    List (Nat × Nat) → List (Nat × Nat) × Except String (List String)
  | [] => ([], Except.ok [])
  | s :: rest =>
    match client s with
    | Except.error e => ([s], Except.error e)
    | Except.ok t =>
      match transcribeChunkedTrace client rest with
      | (calls, Except.error e) => (s :: calls, Except.error e)
      | (calls, Except.ok ts) => (s :: calls, Except.ok (t :: ts))

/-- Embedding of `transcribe_audio` (lines 102-126): audio abstracted to
its length, the transcription client to a function on chunk spans.  The
result pairs the spans the client was called on with the outcome;
`"\n".join(segments)` assembles the chunked transcripts. -/
def transcribe_audio (client : Nat × Nat → Except String String) (audioLen : Nat)
    (chunkSeconds : Option Int) : List (Nat × Nat) × Except String String :=
  match chunkSeconds with
  | some cs =>
    if 0 < cs then
      let spans := chunk_audio audioLen cs.toNat
      let r := transcribeChunkedTrace client spans
      (r.1, r.2.map (fun segs => String.intercalate "\n" segs))
    else ([(0, audioLen)], client (0, audioLen))
  | none => ([(0, audioLen)], client (0, audioLen))

/-- Index of the first chunk span the client fails on, if any. -/
def firstFailingIndex (client : Nat × Nat → Except String String)
    (spans : List (Nat × Nat)) : Option Nat :=
  spans.findIdx? (fun s => match client s with | Except.error _ => true | Except.ok _ => false)

mutual

/-- Python `repr()` of a stored JSON value, approximated: strings are
wrapped in single quotes without escaping. -/
def pyRepr : Json → String
  | Json.null => "None"
  | Json.bool true => "True"
  | Json.bool false => "False"
  | Json.num n => toString n
  | Json.str s => "\x27" ++ s ++ "\x27"
  | Json.arr l => "[" ++ pyReprList l ++ "]"
  | Json.obj o => "\x7b" ++ pyReprPairs o ++ "\x7d"

/-- Comma-separated `repr()` of list elements. -/
def pyReprList : List Json → String
  | [] => ""
  | [x] => pyRepr x
  | x :: xs => pyRepr x ++ ", " ++ pyReprList xs

/-- Comma-separated `repr()` of dict entries. -/
def pyReprPairs : List (String × Json) → String
  | [] => ""
  | [(k, v)] => "\x27" ++ k ++ "\x27: " ++ pyRepr v
  | (k, v) :: xs => "\x27" ++ k ++ "\x27: " ++ pyRepr v ++ ", " ++ pyReprPairs xs

end

/-- Python `str()` of a stored JSON value, used by the f-strings of the
renderer: the identity on strings, repr-style for containers (the claims
never depend on the container case). -/
def pyStr : Json → String
  | Json.null => "None"
  | Json.bool true => "True"
  | Json.bool false => "False"
  | Json.num n => toString n
  | Json.str s => s
  | Json.arr l => "[" ++ pyReprList l ++ "]"
  | Json.obj o => "\x7b" ++ pyReprPairs o ++ "\x7d"

/-- Truthiness of an optional stored value (`None` is falsy). -/
def pyTruthyOpt : Option Json → Bool
  | none => false
  | some v => pyTruthy v

/-- Python `str()` of an optional stored value. -/
def pyStrOpt : Option Json → String
  | none => "None"
  | some v => pyStr v

/-- Render one action item line (lines 50-52); the separator preserves
the mojibake bytes of the source literal. -/
def actionLine (a : ActionItem) : String :=
  let owner_text := if pyTruthyOpt a.owner then pyStrOpt a.owner ++ " â€” " else ""
  let due_text := if pyTruthyOpt a.due_date then " (due " ++ pyStrOpt a.due_date ++ ")" else ""
  "- [ ] " ++ owner_text ++ a.description ++ due_text

/-- The `lines` list that `MeetingMinutes.to_markdown` (lines 37-59)
builds before joining. -/
def minutesLines (m : MeetingMinutes) (title : String) : List String :=
  let lines := ["# " ++ title ++ " - " ++ m.date, ""]
  let lines :=
    if m.summary.isEmpty then lines
    else lines ++ ["## Summary"] ++ m.summary.map (fun item => "- " ++ pyStr item) ++ [""]
  let lines :=
    if m.decisions.isEmpty then lines
    else lines ++ ["## Decisions"] ++ m.decisions.map (fun item => "- " ++ pyStr item) ++ [""]
  let lines :=
    if m.action_items.isEmpty then lines
    else lines ++ ["## Action Items"] ++ m.action_items.map actionLine ++ [""]
  let lines :=
    if m.timeline.isEmpty then lines
    else lines ++ ["## Timeline"] ++ m.timeline.map (fun item => "- " ++ pyStr item) ++ [""]
  lines ++ ["## Full Transcript", m.transcript]

/-- Embedding of `MeetingMinutes.to_markdown` (line 60):
`"\n".join(lines).strip() + "\n"`. -/
def to_markdown (m : MeetingMinutes) (title : String) : String :=
  pyStrip (String.intercalate "\n" (minutesLines m title)) ++ "\n"

/-! Helper lemmas about two-sided stripping. -/

lemma dropWhile_eq_self_of_head {α : Type} (p : α → Bool) (l : List α)
    (h : ∀ w : l ≠ [], p (l.head w) = false) : l.dropWhile p = l := by
  cases l with
  | nil => rfl
  | cons x xs =>
    have hx := h (by simp)
    simp only [List.head_cons] at hx
    simp [List.dropWhile_cons, hx]

lemma stripList_eq_rdropWhile (p : Char → Bool) (l : List Char) :
    stripList p l = List.rdropWhile p (l.dropWhile p) := rfl

lemma stripList_getLast?_not (p : Char → Bool) (l : List Char) (c : Char)
    (h : (stripList p l).getLast? = some c) : p c = false := by
  rw [stripList_eq_rdropWhile] at h
  by_cases hn : List.rdropWhile p (l.dropWhile p) = []
  · rw [hn] at h
    simp at h
  · rw [List.getLast?_eq_getLast _ hn] at h
    have hlast := List.rdropWhile_last_not p (l.dropWhile p) hn
    have : c = (List.rdropWhile p (l.dropWhile p)).getLast hn := by
      injection h with h1
      exact h1.symm
    rw [this]
    exact Bool.not_eq_true _ |>.mp hlast

lemma stripList_dropWhile_eq_self (p : Char → Bool) (l : List Char) :
    (stripList p l).dropWhile p = stripList p l := by
  rw [stripList_eq_rdropWhile]
  apply dropWhile_eq_self_of_head
  intro w
  obtain ⟨t, ht⟩ := List.rdropWhile_prefix p (l.dropWhile p)
  have hA : (l.dropWhile p).head? = some ((List.rdropWhile p (l.dropWhile p)).head w) := by
    conv_lhs => rw [← ht]
    rw [List.head?_append, List.head?_eq_head w]
    rfl
  have hmatch := List.head?_dropWhile_not p l
  rw [hA] at hmatch
  exact hmatch

lemma stripList_idem (p : Char → Bool) (l : List Char) :
    stripList p (stripList p l) = stripList p l := by
  have h1 : (stripList p l).dropWhile p = stripList p l := stripList_dropWhile_eq_self p l
  show List.rdropWhile p ((stripList p l).dropWhile p) = stripList p l
  rw [h1, stripList_eq_rdropWhile]
  exact List.rdropWhile_idempotent p _

lemma stripChars_data (p : Char → Bool) (s : String) :
    (stripChars p s).data = stripList p s.data := rfl

lemma pyStrip_idem (s : String) : pyStrip (pyStrip s) = pyStrip s := by
  unfold pyStrip stripChars
  rw [show (String.mk (stripList isPyStripWs s.data)).data = stripList isPyStripWs s.data from rfl,
    stripList_idem]

/-- C9: Parsing the raw payload of an empty JSON object yields a
`MeetingMinutes` whose `summary`, `decisions`, `action_items` and
`timeline` are all empty, with `date` and `transcript` taken from the
caller-provided pipeline context, not from the payload. -/
theorem parse_empty_object_defaults (transcript meeting_date : String) :
    summarize_transcript (some "\x7b\x7d") transcript meeting_date =
      Except.ok (MeetingMinutes.mk meeting_date [] [] [] [] transcript) := rfl

/-- C1, failing-input theorem: the fallback chain does recover a payload
that fails to decode on both attempts (first conjunct: the whole minutes
structure degrades to empty fields), but a payload that decodes to a
non-object JSON value, such as the list payload of the second conjunct,
raises `AttributeError` when the code calls `.get` on it — the parse is
not non-raising for non-object payloads as claimed. -/
theorem non_object_payload_raises :
    summarize_transcript (some "not json at all") "t" "2024-05-01" =
      Except.ok (MeetingMinutes.mk "2024-05-01" [] [] [] [] "t") ∧
    summarize_transcript (some "[1, 2]") "t" "2024-05-01" =
      Except.error "AttributeError: get called on a non-dict value" :=
  ⟨rfl, rfl⟩

/-- C2, failing-input theorem: on the spec's own example payload, fenced
with a language-tagged code fence, both decode attempts fail — the retry
strips only whitespace and backticks, leaving the text of the language
tag in front of the object — so every structured field defaults and
`summary` is empty, not the singleton the claim requires (first
conjunct).  The second conjunct shows the retry does succeed when the
fence carries no language tag, confirming the intent of the fallback. -/
theorem fenced_payload_with_tag_defaults :
    summarize_transcript (some "```json\n\x7b\"summary\":[\"a\"]\x7d\n```") "t" "2024-05-01" =
      Except.ok (MeetingMinutes.mk "2024-05-01" [] [] [] [] "t") ∧
    summarize_transcript (some "```\n\x7b\"summary\":[\"a\"]\x7d\n```") "t" "2024-05-01" =
      Except.ok (MeetingMinutes.mk "2024-05-01" [Json.str "a"] [] [] [] "t") :=
  ⟨rfl, rfl⟩

/-- C3, failing-input theorem: an action item whose description is
whitespace-only is truthy before trimming, so the comprehension keeps it
and stores the stripped — hence blank — description instead of dropping
the element as claimed. -/
theorem blank_description_item_is_retained :
    summarize_transcript
        (some "\x7b\"action_items\": [\x7b\"description\": \"  \", \"owner\": \"Bob\"\x7d]\x7d")
        "t" "2024-05-01" =
      Except.ok (MeetingMinutes.mk "2024-05-01" [] []
        [ActionItem.mk "" (some (Json.str "Bob")) none] [] "t") := rfl

/-- C8: the rendered lines consist of the title/date header followed by
the Summary, Decisions, Action Items and Timeline sections in that
literal order, each present exactly when its list is non-empty, and
always the Full Transcript section (first conjunct); with every list
field empty only the header and the Full Transcript section remain
(second conjunct); and the rendered document is its stripped body plus
exactly one trailing newline (third conjunct). -/
theorem to_markdown_section_layout (m : MeetingMinutes) (title : String) :
    minutesLines m title =
      ["# " ++ title ++ " - " ++ m.date, ""]
        ++ (if m.summary.isEmpty then [] else
              ["## Summary"] ++ m.summary.map (fun item => "- " ++ pyStr item) ++ [""])
        ++ (if m.decisions.isEmpty then [] else
              ["## Decisions"] ++ m.decisions.map (fun item => "- " ++ pyStr item) ++ [""])
        ++ (if m.action_items.isEmpty then [] else
              ["## Action Items"] ++ m.action_items.map actionLine ++ [""])
        ++ (if m.timeline.isEmpty then [] else
              ["## Timeline"] ++ m.timeline.map (fun item => "- " ++ pyStr item) ++ [""])
        ++ ["## Full Transcript", m.transcript] ∧
    (m.summary = [] → m.decisions = [] → m.action_items = [] → m.timeline = [] →
      minutesLines m title =
        ["# " ++ title ++ " - " ++ m.date, "", "## Full Transcript", m.transcript]) ∧
    (∃ u : String, to_markdown m title = u ++ "\n" ∧ u.data.getLast? ≠ some '\n') := by
  refine ⟨?_, ?_, ?_⟩
  · unfold minutesLines
    by_cases h1 : m.summary = [] <;> by_cases h2 : m.decisions = [] <;>
      by_cases h3 : m.action_items = [] <;> by_cases h4 : m.timeline = [] <;>
      simp [h1, h2, h3, h4]
  · intro h1 h2 h3 h4
    simp [minutesLines, h1, h2, h3, h4]
  · refine ⟨pyStrip (String.intercalate "\n" (minutesLines m title)), rfl, ?_⟩
    intro hc
    have hlast := stripList_getLast?_not isPyStripWs
      (String.intercalate "\n" (minutesLines m title)).data '\n' hc
    exact absurd hlast (by decide)

/-- C8 witness: the layout theorem at a concrete minutes value with all
list fields empty. -/
theorem to_markdown_section_layout_witness :
    minutesLines (MeetingMinutes.mk "2024-01-01" [] [] [] [] "T") "Sync" =
      ["# " ++ "Sync" ++ " - " ++ "2024-01-01", "", "## Full Transcript", "T"] :=
  (to_markdown_section_layout (MeetingMinutes.mk "2024-01-01" [] [] [] [] "T") "Sync").2.1
    rfl rfl rfl rfl

/-! Helper lemmas for the segmenter. -/

lemma ceil_div_shift (step m : Nat) (hstep : 0 < step) (hm : 0 < m) :
    (m + step - 1) / step = (m - step + step - 1) / step + 1 := by
  rcases le_or_lt m step with h | h
  · have h0 : m - step = 0 := by omega
    rw [h0, Nat.zero_add]
    have h1 : (step - 1) / step = 0 := Nat.div_eq_of_lt (by omega)
    rw [h1]
    exact Nat.div_eq_of_lt_le (by omega) (by omega)
  · have h1 : m - step + step - 1 = m - 1 := by omega
    have h2 : m + step - 1 = m - 1 + step := by omega
    rw [h1, h2, Nat.add_div_right _ hstep]

lemma pyRangeFrom_eq (step : Nat) (hstep : 0 < step) :
    ∀ (fuel start stop : Nat), stop - start ≤ fuel →
      pyRangeFrom fuel start stop step =
        (List.range ((stop - start + step - 1) / step)).map (fun i => start + i * step) := by
  intro fuel
  induction fuel with
  | zero =>
    intro start stop h
    have h0 : stop - start = 0 := by omega
    rw [h0]
    have h1 : (0 + step - 1) / step = 0 := by
      rw [Nat.zero_add]; exact Nat.div_eq_of_lt (by omega)
    rw [h1]
    rfl
  | succ f ih =>
    intro start stop h
    by_cases hlt : start < stop
    · simp only [pyRangeFrom]
      rw [if_pos ⟨hstep, hlt⟩, ih (start + step) stop (by omega)]
      have hshift : (stop - start + step - 1) / step =
          (stop - (start + step) + step - 1) / step + 1 := by
        rw [show stop - (start + step) = stop - start - step by omega]
        exact ceil_div_shift step (stop - start) hstep (by omega)
      rw [hshift, List.range_succ_eq_map, List.map_cons, List.map_map]
      congr 1
      · ring
      · exact List.map_congr_left (fun a _ => by simp [Function.comp]; ring)
    · simp only [pyRangeFrom]
      rw [if_neg (fun hc => hlt hc.2)]
      have h0 : stop - start = 0 := by omega
      rw [h0]
      have h1 : (0 + step - 1) / step = 0 := by
        rw [Nat.zero_add]; exact Nat.div_eq_of_lt (by omega)
      rw [h1]
      rfl

lemma pyRange_eq (stop step : Nat) (hstep : 0 < step) :
    pyRange stop step = (List.range ((stop + step - 1) / step)).map (fun i => i * step) := by
  unfold pyRange
  rw [pyRangeFrom_eq step hstep stop 0 stop (by omega)]
  simp

lemma segmentSpans_eq (L d : Nat) (hd : 0 < d) :
    segmentSpans L d =
      (List.range ((L + d - 1) / d)).map (fun i => (i * d, min d (L - i * d))) := by
  unfold segmentSpans
  rw [pyRange_eq L d hd, List.map_map]
  rfl

lemma segment_start_lt (L d i : Nat) (hd : 0 < d) (hi : i < (L + d - 1) / d) : i * d < L := by
  rcases Nat.eq_zero_or_pos L with h0 | h0
  · subst h0
    have hz : (0 + d - 1) / d = 0 := by
      rw [Nat.zero_add]; exact Nat.div_eq_of_lt (by omega)
    omega
  · have hn : (L + d - 1) / d = (L - 1) / d + 1 := by
      rw [show L + d - 1 = L - 1 + d by omega, Nat.add_div_right _ hd]
    have h1 : i ≤ (L - 1) / d := by omega
    have h2 : i * d ≤ L - 1 := (Nat.le_div_iff_mul_le hd).mp h1
    omega

lemma segment_full_chunk (L d i : Nat) (hd : 0 < d) (hi : i + 1 < (L + d - 1) / d) :
    min d (L - i * d) = d := by
  rcases Nat.eq_zero_or_pos L with h0 | h0
  · subst h0
    have hz : (0 + d - 1) / d = 0 := by
      rw [Nat.zero_add]; exact Nat.div_eq_of_lt (by omega)
    omega
  · have hn : (L + d - 1) / d = (L - 1) / d + 1 := by
      rw [show L + d - 1 = L - 1 + d by omega, Nat.add_div_right _ hd]
    have h1 : i + 1 ≤ (L - 1) / d := by omega
    have h2 : (i + 1) * d ≤ L - 1 := (Nat.le_div_iff_mul_le hd).mp h1
    have h3 : (i + 1) * d = i * d + d := by ring
    exact min_eq_left (by omega)

lemma segment_last_chunk (L d : Nat) (hd : 0 < d) (hL : 0 < L) :
    min d (L - ((L + d - 1) / d - 1) * d) = (if L % d = 0 then d else L % d) ∧
    ((L + d - 1) / d - 1) * d + min d (L - ((L + d - 1) / d - 1) * d) = L := by
  have hn : (L + d - 1) / d = (L - 1) / d + 1 := by
    rw [show L + d - 1 = L - 1 + d by omega, Nat.add_div_right _ hd]
  have hidx : (L + d - 1) / d - 1 = (L - 1) / d := by rw [hn, Nat.add_sub_cancel]
  rw [hidx]
  have hmod := Nat.div_add_mod (L - 1) d
  have hrlt : (L - 1) % d < d := Nat.mod_lt _ hd
  have hdk : d * ((L - 1) / d) = ((L - 1) / d) * d := Nat.mul_comm _ _
  have hLk : L - ((L - 1) / d) * d = (L - 1) % d + 1 := by omega
  have hmin : min d (L - ((L - 1) / d) * d) = (L - 1) % d + 1 := by
    rw [hLk]; exact min_eq_right (by omega)
  constructor
  · rw [hmin]
    by_cases h : L % d = 0
    · rw [if_pos h]
      have hq := Nat.div_add_mod L d
      rw [h, Nat.add_zero] at hq
      have hq1 : 0 < L / d := by
        rcases Nat.eq_zero_or_pos (L / d) with hz | hz
        · rw [hz, Nat.mul_zero] at hq; omega
        · exact hz
      have hmul : d * (L / d) = d * (L / d - 1) + d := by
        conv_lhs => rw [show L / d = (L / d - 1) + 1 by omega]
        rw [Nat.mul_add, Nat.mul_one]
      have hcomm : d * (L / d - 1) = (L / d - 1) * d := Nat.mul_comm _ _
      have hsplit : L - 1 = (d - 1) + (L / d - 1) * d := by omega
      rw [hsplit, Nat.add_mul_mod_self_right, Nat.mod_eq_of_lt (by omega)]
      omega
    · rw [if_neg h]
      have hq := Nat.div_add_mod L d
      have hmlt : L % d < d := Nat.mod_lt _ hd
      have hcomm2 : d * (L / d) = (L / d) * d := Nat.mul_comm _ _
      have hsplit : L - 1 = (L % d - 1) + (L / d) * d := by omega
      have hmod2 : (L - 1) % d = L % d - 1 := by
        rw [hsplit, Nat.add_mul_mod_self_right, Nat.mod_eq_of_lt (by omega)]
      omega
  · rw [hmin]; omega

/-- C5: for every positive chunk duration `d` the segmenter emits
exactly `ceil(L / d)` chunks (first conjunct), none when the audio is
empty (second conjunct); chunk `i` starts at `i * d`, has positive
length `min d (L - i * d)` (third conjunct), every chunk but the last
has length exactly `d` and ends where the next one starts, with starts
strictly ascending (fourth conjunct); and the last chunk has length
`L mod d` — or the full `d` when `d` divides `L` — and ends exactly at
`L`, so the spans cover `[0, L)` with no gap or overlap (fifth
conjunct). -/
theorem segmenter_chunk_layout (L d : Nat) (hd : 0 < d) :
    (segmentSpans L d).length = (L + d - 1) / d ∧
    (L = 0 → segmentSpans L d = []) ∧
    (∀ i : Nat, i < (L + d - 1) / d →
      (segmentSpans L d)[i]? = some (i * d, min d (L - i * d)) ∧ 0 < min d (L - i * d)) ∧
    (∀ i : Nat, i + 1 < (L + d - 1) / d →
      min d (L - i * d) = d ∧ i * d + min d (L - i * d) = (i + 1) * d ∧ i * d < (i + 1) * d) ∧
    (0 < L →
      min d (L - ((L + d - 1) / d - 1) * d) = (if L % d = 0 then d else L % d) ∧
      ((L + d - 1) / d - 1) * d + min d (L - ((L + d - 1) / d - 1) * d) = L) := by
  refine ⟨?_, ?_, ?_, ?_, ?_⟩
  · rw [segmentSpans_eq L d hd]; simp
  · intro h0; subst h0
    rw [segmentSpans_eq 0 d hd]
    have h1 : (0 + d - 1) / d = 0 := by
      rw [Nat.zero_add]; exact Nat.div_eq_of_lt (by omega)
    rw [h1]; rfl
  · intro i hi
    constructor
    · rw [segmentSpans_eq L d hd, List.getElem?_map, List.getElem?_range hi]
      rfl
    · have h1 := segment_start_lt L d i hd hi
      have h2 : 0 < L - i * d := by omega
      exact lt_min hd h2
  · intro i hi
    have h1 := segment_full_chunk L d i hd hi
    refine ⟨h1, by rw [h1]; ring, ?_⟩
    have h3 : (i + 1) * d = i * d + d := by ring
    omega
  · intro hL
    exact segment_last_chunk L d hd hL

/-- C5 witness: the segmentation theorem at a concrete audio length and
chunk duration. -/
theorem segmenter_chunk_layout_witness :
    0 < 1000 ∧
    ((segmentSpans 2500 1000).length = (2500 + 1000 - 1) / 1000 ∧
    (2500 = 0 → segmentSpans 2500 1000 = []) ∧
    (∀ i : Nat, i < (2500 + 1000 - 1) / 1000 →
      (segmentSpans 2500 1000)[i]? = some (i * 1000, min 1000 (2500 - i * 1000)) ∧
        0 < min 1000 (2500 - i * 1000)) ∧
    (∀ i : Nat, i + 1 < (2500 + 1000 - 1) / 1000 →
      min 1000 (2500 - i * 1000) = 1000 ∧
        i * 1000 + min 1000 (2500 - i * 1000) = (i + 1) * 1000 ∧
        i * 1000 < (i + 1) * 1000) ∧
    (0 < 2500 →
      min 1000 (2500 - ((2500 + 1000 - 1) / 1000 - 1) * 1000) =
        (if 2500 % 1000 = 0 then 1000 else 2500 % 1000) ∧
      ((2500 + 1000 - 1) / 1000 - 1) * 1000 +
        min 1000 (2500 - ((2500 + 1000 - 1) / 1000 - 1) * 1000) = 2500)) :=
  ⟨by decide, segmenter_chunk_layout 2500 1000 (by decide)⟩

/-! Helper lemma for the chunked transcription loop. -/

lemma transcribeChunkedTrace_first_error (client : Nat × Nat → Except String String)
    (s : Nat × Nat) (e : String) :
    ∀ (pre post : List (Nat × Nat)), (∀ x ∈ pre, ∃ t, client x = Except.ok t) →
      client s = Except.error e →
      transcribeChunkedTrace client (pre ++ s :: post) = (pre ++ [s], Except.error e) := by
  intro pre
  induction pre with
  | nil =>
    intro post _ hse
    simp [transcribeChunkedTrace, hse]
  | cons x xs ih =>
    intro post hpre hse
    obtain ⟨t, ht⟩ := hpre x (by simp)
    have htail := ih post (fun y hy => hpre y (by simp [hy])) hse
    simp only [List.cons_append, transcribeChunkedTrace, List.append_eq, ht, htail]

/-- C4, amended: when the client fails on a chunk, the pipeline aborts
with the first failing chunk — the chunks before it all succeeded, the
chunks after it are never sent to the client, no partial transcript is
returned — and the surfaced error is the client's error for that chunk,
verbatim, with no chunk index attached. -/
theorem transcribe_audio_aborts_on_first_chunk_error
    (client : Nat × Nat → Except String String) (L : Nat) (cs : Int)
    (pre post : List (Nat × Nat)) (s : Nat × Nat) (e : String)
    (hcs : 0 < cs)
    (hspans : segmentSpans L (cs.toNat * 1000) = pre ++ s :: post)
    (hpre : ∀ x ∈ pre, ∃ t, client x = Except.ok t)
    (hs : client s = Except.error e) :
    transcribe_audio client L (some cs) = (pre ++ [s], Except.error e) := by
  show (if 0 < cs then _ else _) = _
  rw [if_pos hcs]
  show (let spans := chunk_audio L cs.toNat
        let r := transcribeChunkedTrace client spans
        (r.1, r.2.map (fun segs => String.intercalate "\n" segs))) = _
  show ((transcribeChunkedTrace client (chunk_audio L cs.toNat)).1,
        (transcribeChunkedTrace client (chunk_audio L cs.toNat)).2.map
          (fun segs => String.intercalate "\n" segs)) = _
  unfold chunk_audio
  rw [hspans, transcribeChunkedTrace_first_error client s e pre post hpre hs]
  rfl

/-- C4 witness: a client that succeeds on the first chunk and fails on
the second aborts the run at the second chunk with the client's error. -/
def clientB : Nat × Nat → Except String String := fun s =>
  if s = (0, 1000) then Except.ok "hi" else Except.error "boom"

theorem transcribe_audio_aborts_witness :
    transcribe_audio clientB 2000 (some 1) = ([(0, 1000), (1000, 1000)], Except.error "boom") :=
  transcribe_audio_aborts_on_first_chunk_error clientB 2000 1 [(0, 1000)] [] (1000, 1000) "boom"
    (by decide) (by decide) (fun x hx => by
      have hx0 : x = (0, 1000) := by simpa using hx
      exact ⟨"hi", by rw [hx0]; rfl⟩) rfl

/-- C4 counterexample client: fails on every chunk. -/
def clientA : Nat × Nat → Except String String := fun _ => Except.error "boom"

/-- C4 counterexample: the surfaced error does not identify the failing
chunk's position.  A run whose first failure is chunk 0 (`clientA`) and a
run whose first failure is chunk 1 (`clientB`) abort with the identical
error value (first four conjuncts), so the surfaced error cannot
determine the failing chunk index: the final conjunct refutes the
statement that runs failing first at different chunk positions surface
different errors. -/
theorem chunk_error_does_not_identify_index :
    (transcribe_audio clientA 2000 (some 1)).2 = Except.error "boom" ∧
    (transcribe_audio clientB 2000 (some 1)).2 = Except.error "boom" ∧
    firstFailingIndex clientA (chunk_audio 2000 1) = some 0 ∧
    firstFailingIndex clientB (chunk_audio 2000 1) = some 1 ∧
    ¬ (∀ (c1 c2 : Nat × Nat → Except String String) (L : Nat) (cs : Int) (e1 e2 : String),
        (transcribe_audio c1 L (some cs)).2 = Except.error e1 →
        (transcribe_audio c2 L (some cs)).2 = Except.error e2 →
        firstFailingIndex c1 (chunk_audio L cs.toNat) ≠
          firstFailingIndex c2 (chunk_audio L cs.toNat) →
        e1 ≠ e2) :=
  ⟨rfl, rfl, rfl, rfl, fun hid =>
    hid clientA clientB 2000 1 "boom" "boom" rfl rfl
      (fun hsame => Option.noConfusion hsame (fun h01 => Nat.noConfusion h01))
      rfl⟩

/-- C6: with `chunk_seconds` absent, zero or negative, no segmentation
happens — the transcription client is called exactly once, on the single
chunk spanning the whole audio, and its result is the transcript. -/
theorem transcribe_whole_single_call (client : Nat × Nat → Except String String)
    (L : Nat) (cso : Option Int)
    (h : cso = none ∨ ∃ cs : Int, cso = some cs ∧ cs ≤ 0) :
    transcribe_audio client L cso = ([(0, L)], client (0, L)) := by
  rcases h with h | ⟨cs, rfl, hcs⟩
  · subst h; rfl
  · show (if 0 < cs then _ else _) = _
    rw [if_neg (by omega)]

/-- C6 witness client: a fixed successful transcription. -/
def clientWhole : Nat × Nat → Except String String := fun _ => Except.ok "whole"

theorem transcribe_whole_single_call_witness :
    (some (-3 : Int) = none ∨ ∃ cs : Int, some (-3 : Int) = some cs ∧ cs ≤ 0) ∧
    transcribe_audio clientWhole 4321 (some (-3)) = ([(0, 4321)], Except.ok "whole") :=
  ⟨Or.inr ⟨-3, rfl, by decide⟩,
    transcribe_whole_single_call clientWhole 4321 (some (-3)) (Or.inr ⟨-3, rfl, by decide⟩)⟩

/-- C7: for an accepted action item whose description decodes to the
string `s`, construction succeeds and keeps the (stripped) description;
an `owner` or `due_date` field holding the empty string is stored as
absent (`none`), never as an empty string, while a non-empty string
value is stored verbatim. -/
theorem accepted_item_optional_fields (kvs : List (String × Json)) (s : String)
    (_hacc : acceptsItem (Json.obj kvs) = true)
    (hdesc : pyGetD kvs "description" (Json.str "") = Json.str s) :
    ∃ a : ActionItem, mkActionItem (Json.obj kvs) = Except.ok a ∧
      a.description = pyStrip s ∧
      (pyGetD kvs "owner" Json.null = Json.str "" → a.owner = none) ∧
      (∀ t : String, t ≠ "" → pyGetD kvs "owner" Json.null = Json.str t →
        a.owner = some (Json.str t)) ∧
      (pyGetD kvs "due_date" Json.null = Json.str "" → a.due_date = none) ∧
      (∀ t : String, t ≠ "" → pyGetD kvs "due_date" Json.null = Json.str t →
        a.due_date = some (Json.str t)) := by
  refine ⟨{ description := pyStrip s
            owner :=
              if pyTruthy (pyGetD kvs "owner" Json.null) then some (pyGetD kvs "owner" Json.null)
              else none
            due_date :=
              if pyTruthy (pyGetD kvs "due_date" Json.null) then
                some (pyGetD kvs "due_date" Json.null)
              else none }, ?_, rfl, ?_, ?_, ?_, ?_⟩
  · show mkActionItem (Json.obj kvs) = _
    simp only [mkActionItem, hdesc]
  · intro h
    show (if pyTruthy (pyGetD kvs "owner" Json.null) then some (pyGetD kvs "owner" Json.null)
          else none) = none
    rw [h]
    rfl
  · intro t ht h
    show (if pyTruthy (pyGetD kvs "owner" Json.null) then some (pyGetD kvs "owner" Json.null)
          else none) = some (Json.str t)
    rw [h]
    simp [pyTruthy, String.isEmpty_iff, ht]
  · intro h
    show (if pyTruthy (pyGetD kvs "due_date" Json.null) then
            some (pyGetD kvs "due_date" Json.null)
          else none) = none
    rw [h]
    rfl
  · intro t ht h
    show (if pyTruthy (pyGetD kvs "due_date" Json.null) then
            some (pyGetD kvs "due_date" Json.null)
          else none) = some (Json.str t)
    rw [h]
    simp [pyTruthy, String.isEmpty_iff, ht]

/-- C7 witness key-value list: description kept, owner present but empty. -/
def kvsShip : List (String × Json) := [("description", Json.str "Ship it"), ("owner", Json.str "")]

theorem accepted_item_optional_fields_witness :
    acceptsItem (Json.obj kvsShip) = true ∧
    (∃ a : ActionItem, mkActionItem (Json.obj kvsShip) = Except.ok a ∧
      a.description = pyStrip "Ship it" ∧
      (pyGetD kvsShip "owner" Json.null = Json.str "" → a.owner = none) ∧
      (∀ t : String, t ≠ "" → pyGetD kvsShip "owner" Json.null = Json.str t →
        a.owner = some (Json.str t)) ∧
      (pyGetD kvsShip "due_date" Json.null = Json.str "" → a.due_date = none) ∧
      (∀ t : String, t ≠ "" → pyGetD kvsShip "due_date" Json.null = Json.str t →
        a.due_date = some (Json.str t))) :=
  ⟨rfl, accepted_item_optional_fields kvsShip "Ship it" rfl rfl⟩

/-- C10: every action item retained by the comprehension stores the
`description` value of its payload element stripped of leading and
trailing whitespace; in particular the stored description is invariant
under further stripping, so it never carries surrounding whitespace. -/
theorem retained_description_is_stripped :
    ∀ (items : List Json) (l : List ActionItem), buildActions items = Except.ok l →
      ∀ a ∈ l,
        (∃ kvs s, Json.obj kvs ∈ items ∧
          pyGetD kvs "description" (Json.str "") = Json.str s ∧ a.description = pyStrip s) ∧
        pyStrip a.description = a.description := by
  intro items
  induction items with
  | nil =>
    intro l h a ha
    simp only [buildActions] at h
    injection h with h1
    subst h1
    exact absurd ha (List.not_mem_nil a)
  | cons item rest ih =>
    intro l h a ha
    by_cases hacc : acceptsItem item = true
    · simp only [buildActions] at h
      rw [if_pos hacc] at h
      cases hmk : mkActionItem item with
      | error e => rw [hmk] at h; simp at h
      | ok a0 =>
        rw [hmk] at h
        cases hrest : buildActions rest with
        | error e => rw [hrest] at h; simp at h
        | ok l0 =>
          rw [hrest] at h
          injection h with h1
          subst h1
          rcases List.mem_cons.mp ha with rfl | hmem
          · cases item with
            | null => simp [acceptsItem] at hacc
            | bool b => simp [acceptsItem] at hacc
            | num n => simp [acceptsItem] at hacc
            | str s2 => simp [acceptsItem] at hacc
            | arr l2 => simp [acceptsItem] at hacc
            | obj kvs =>
              simp only [mkActionItem] at hmk
              split at hmk
              · rename_i s heq
                injection hmk with h2
                refine ⟨⟨kvs, s, by simp, heq, by rw [← h2]⟩, ?_⟩
                rw [← h2]
                show pyStrip (pyStrip s) = pyStrip s
                exact pyStrip_idem s
              · simp at hmk
          · obtain ⟨⟨kvs, s, hmem2, hh1, hh2⟩, hh3⟩ := ih l0 hrest a hmem
            exact ⟨⟨kvs, s, List.mem_cons_of_mem _ hmem2, hh1, hh2⟩, hh3⟩
    · simp only [buildActions] at h
      rw [if_neg hacc] at h
      obtain ⟨⟨kvs, s, hmem2, hh1, hh2⟩, hh3⟩ := ih l h a ha
      exact ⟨⟨kvs, s, List.mem_cons_of_mem _ hmem2, hh1, hh2⟩, hh3⟩

/-- C10 witness: the theorem at a one-element payload whose description
carries surrounding whitespace. -/
theorem retained_description_is_stripped_witness :
    (∃ kvs s, Json.obj kvs ∈ [Json.obj [("description", Json.str "  hi  ")]] ∧
      pyGetD kvs "description" (Json.str "") = Json.str s ∧
      (ActionItem.mk "hi" none none).description = pyStrip s) ∧
    pyStrip (ActionItem.mk "hi" none none).description =
      (ActionItem.mk "hi" none none).description :=
  retained_description_is_stripped [Json.obj [("description", Json.str "  hi  ")]]
    [ActionItem.mk "hi" none none] rfl (ActionItem.mk "hi" none none) (by simp)
